import Mathlib

/-!
# Verification of the c7a channel multiplexer

Shallow embedding of `src/c7a/net/channel_multiplexer.hpp` (class
`ChannelMultiplexer`).  The multiplexer's collaborators (`StreamBlockHeader`,
`BufferChainManager`, `Channel`, `NetGroup`, the delivery targets and the
reactor `NetDispatcher`) are declared in headers that are not part of this
repository snapshot; they are modelled from the specification where a claim
depends on them, and each such definition is marked `Modelled from the spec:`.

Side effects on the reactor (registering asynchronous reads) and the
delegation to `Channel::PickupStream` are recorded as explicit `Effect`
values returned next to the updated state.
-/

set_option linter.unusedVariables false

namespace C7A

/-- Modelled from the spec: a received byte buffer and the Buffer-Chain, the
"ordered sequence of byte buffers for one ChannelId" (`buffer_chain.hpp` is
not under `src/`; the chain is opaque to the multiplexer). -/
structure BufferChain where
  buffers : List (List Nat)
deriving DecidableEq, Repr

/-- Modelled from the spec: the fixed-size Frame Header
`{payload_length, channel_id}`; the source calls the payload-length field
`expected_bytes` (see `sizeof(StreamBlockHeader::expected_bytes)` in
`ExpectHeaderFrom`).  `stream_block_header.hpp` is not under `src/`. -/
structure StreamBlockHeader where
  expected_bytes : Nat
  channel_id : Nat
deriving DecidableEq, Repr

/-- Modelled from the spec: both header fields are fixed-width unsigned
integers on the wire; we fix them at 64 bits (8 bytes) each, little endian. -/
def sizeofExpectedBytes : Nat := 8

/-- Modelled from the spec: wire width of the `channel_id` field. -/
def sizeofChannelId : Nat := 8

/-- The byte count requested by `ExpectHeaderFrom`:
`sizeof(StreamBlockHeader::expected_bytes) + sizeof(StreamBlockHeader::channel_id)`. -/
def headerWireSize : Nat := sizeofExpectedBytes + sizeofChannelId

/-- Little-endian decode of a byte list into an unsigned integer. -/
def leDecode (bs : List Nat) : Nat :=
  bs.foldr (fun b acc => b % 256 + 256 * acc) 0

/-- Little-endian encode of `v` into exactly `k` bytes (truncating). -/
def leEncode : Nat → Nat → List Nat
  | 0, _ => []
  | k + 1, v => v % 256 :: leEncode k (v / 256)

/-- Modelled from the spec: `StreamBlockHeader::ParseHeader` — parse the wire
format `[payload_length][channel_id]` from the received header bytes. -/
def ParseHeader (bytes : List Nat) : StreamBlockHeader :=
  { expected_bytes := leDecode (bytes.take sizeofExpectedBytes),
    channel_id := leDecode ((bytes.drop sizeofExpectedBytes).take sizeofChannelId) }

/-- Serialize a Frame Header into its wire bytes (inverse of `ParseHeader`). -/
def serializeHeader (h : StreamBlockHeader) : List Nat :=
  leEncode sizeofExpectedBytes h.expected_bytes ++ leEncode sizeofChannelId h.channel_id

/-- Modelled from the spec: the bytes a `SocketTarget` pushes onto the
connection for one write — a Frame Header carrying the channel id and the
payload length, followed by the payload (`socket_target.hpp` is not under
`src/`). -/
def socketWrite (id : Nat) (payload : List Nat) : List Nat :=
  serializeHeader { expected_bytes := payload.length, channel_id := id } ++ payload

/-- Association-list lookup on integer keys (the embedding of `std::map`
lookup used by `channels_` and by the chain registry). -/
def lookupA {β : Type} : List (Nat × β) → Nat → Option β
  | [], _ => none
  | (k, v) :: rest, id => if id = k then some v else lookupA rest id

/-- Modelled from the spec: the Buffer-Chain Store (`BufferChainManager`,
not under `src/`): a registry mapping a channel id to its Buffer-Chain plus
the process-local monotonic id counter used by `AllocateNext`. -/
structure BufferChainManager where
  next_id : Nat
  chains : List (Nat × BufferChain)
deriving DecidableEq, Repr

namespace BufferChainManager

/-- Modelled from the spec: `Contains(id)` — a Buffer-Chain exists for `id`. -/
def Contains (m : BufferChainManager) (id : Nat) : Bool :=
  (lookupA m.chains id).isSome

/-- Modelled from the spec: `Chain(id)` — return the chain registered for
`id`, creating no new state. -/
def Chain (m : BufferChainManager) (id : Nat) : Option BufferChain :=
  lookupA m.chains id

/-- Modelled from the spec: `Allocate(id)` — create the Buffer-Chain for a
specific id (callers guard on `Contains`; allocation of a present id is a
no-op here). -/
def Allocate (m : BufferChainManager) (id : Nat) : BufferChainManager :=
  if m.Contains id then m
  else { m with chains := (id, ⟨[]⟩) :: m.chains }

/-- Modelled from the spec: `AllocateNext()` — return a fresh id from the
process-local monotonic counter and eagerly create its Buffer-Chain. -/
def AllocateNext (m : BufferChainManager) : Nat × BufferChainManager :=
  (m.next_id, { (m.Allocate m.next_id) with next_id := m.next_id + 1 })

end BufferChainManager

/-- Modelled from the spec: the per-id `Channel` state machine
(`channel.hpp` is not under `src/`): id, `expected_peer_count` (the group's
size, including self), the completion counter, and the target Buffer-Chain
handed to the constructor by `GetOrCreateChannel`. -/
structure Channel where
  id : Nat
  expected_peers : Nat
  completions : Nat
  target_chain : Option BufferChain
deriving DecidableEq, Repr

/-- Modelled from the spec: `Channel::CloseLoopback` — the self-delivery
closed transition, "equivalent to receiving an end-of-stream sentinel":
increments the completion counter, no re-arm. -/
def Channel.CloseLoopback (ch : Channel) : Channel :=
  { ch with completions := ch.completions + 1 }

/-- Modelled from the spec: the fixed-membership connection group
(`net_group.hpp` is not under `src/`): `Size()`, `MyRank()`, `Connection(i)`
(connections are identified by their peer index), and `Close()` which tears
the connections down.  `closed` records whether `Close()` has run. -/
structure NetGroup where
  size : Nat
  myRank : Nat
  closed : Bool
deriving DecidableEq, Repr

/-- Tear down all peer connections (`NetGroup::Close()`). -/
def NetGroup.Close (g : NetGroup) : NetGroup :=
  { g with closed := true }

/-- An observable side effect of a multiplexer operation: an asynchronous
read registered with the reactor (`dispatcher_.AsyncRead(s, n, cb)`), or the
delegation `channel->PickupStream(s, header)` to a Channel (whose body lives
outside this translation unit). -/
inductive Effect where
  | asyncRead (conn : Nat) (bytes : Nat)
  | pickup (ch : Channel) (conn : Nat) (header : StreamBlockHeader)
deriving DecidableEq, Repr

/-- A delivery target produced by `OpenChannel`: the loopback target is bound
to the chain the store returned for the id plus the bound
`CloseLoopbackStream` closure (recorded by its id argument); the socket
target carries the peer's connection and the channel id it frames with. -/
inductive EmitterTarget where
  | loopback (chain : Option BufferChain) (closerId : Nat)
  | socket (conn : Nat) (id : Nat)
deriving DecidableEq, Repr

/-- The `ChannelMultiplexer`'s state: the channel registry `channels_`, the
buffer-chain store `chains_`, and the group pointer `group_` (null before
`Connect`).  The reactor reference `dispatcher_` carries no state here;
registrations with it are returned as `Effect`s. -/
structure ChannelMultiplexer where
  channels_ : List (Nat × Channel)
  chains_ : BufferChainManager
  group_ : Option NetGroup
deriving DecidableEq, Repr

namespace ChannelMultiplexer

/-- The constructor `ChannelMultiplexer(dispatcher)`: empty registry, empty
store, `group_(nullptr)`. -/
def init : ChannelMultiplexer :=
  { channels_ := [], chains_ := { next_id := 0, chains := [] }, group_ := none }

/-- Source `HasChannel(id)`: `channels_.find(id) != channels_.end()`. -/
def HasChannel (m : ChannelMultiplexer) (id : Nat) : Bool :=
  (lookupA m.channels_ id).isSome

/-- Source `HasDataOn(id)`: `chains_.Contains(id)`. -/
def HasDataOn (m : ChannelMultiplexer) (id : Nat) : Bool :=
  m.chains_.Contains id

/-- Source `AccessData(id)`: `chains_.Chain(id)`. -/
def AccessData (m : ChannelMultiplexer) (id : Nat) : Option BufferChain :=
  m.chains_.Chain id

/-- Source `AllocateNext()`: `return chains_.AllocateNext();`. -/
def AllocateNext (m : ChannelMultiplexer) : Nat × ChannelMultiplexer :=
  let p := m.chains_.AllocateNext
  (p.1, { m with chains_ := p.2 })

/-- Source `ExpectHeaderFrom(s)`: registers one asynchronous read of
`sizeof(expected_bytes) + sizeof(channel_id)` bytes on connection `s` with
the reactor (callback: `ReadFirstHeaderPartFrom`). -/
def ExpectHeaderFrom (s : Nat) : Effect :=
  Effect.asyncRead s headerWireSize

/-- Source `Connect(s)`: store the group, then for every peer index except
`MyRank()` call `ExpectHeaderFrom(group_->Connection(id))`. -/
def Connect (m : ChannelMultiplexer) (g : NetGroup) :
    ChannelMultiplexer × List Effect :=
  ({ m with group_ := some g },
   ((List.range g.size).filter (fun i => i != g.myRank)).map ExpectHeaderFrom)

/-- Source `GetOrCreateChannel(id)`: return the registered channel if present;
otherwise allocate the Buffer-Chain if absent, then construct a `Channel`
with `expected_peers = group_->Size()` and the chain as target, and insert
it.  The create branch dereferences `group_`; a null group there is modelled
as `none`. -/
def GetOrCreateChannel (m : ChannelMultiplexer) (id : Nat) :
    Option (Channel × ChannelMultiplexer) :=
  match lookupA m.channels_ id with
  | some ch => some (ch, m)
  | none =>
    m.group_.map (fun g =>
      let chains := if m.chains_.Contains id then m.chains_ else m.chains_.Allocate id
      let ch : Channel :=
        { id := id, expected_peers := g.size, completions := 0,
          target_chain := chains.Chain id }
      (ch, { m with chains_ := chains, channels_ := (id, ch) :: m.channels_ }))

/-- Source `CloseLoopbackStream(id)`: `GetOrCreateChannel(id)->CloseLoopback();` —
the channel object in the registry is updated in place through the shared
pointer. -/
def CloseLoopbackStream (m : ChannelMultiplexer) (id : Nat) :
    Option ChannelMultiplexer :=
  (m.GetOrCreateChannel id).map (fun p =>
    { p.2 with channels_ :=
        p.2.channels_.map (fun q => if q.1 = id then (q.1, q.2.CloseLoopback) else q) })

/-- Source `ReadFirstHeaderPartFrom(s, buffer)`: parse the header from the received
bytes, look up or lazily create the channel for `header.channel_id`, and
delegate `channel->PickupStream(s, header)` (recorded as an effect; the
`Channel` body is outside this translation unit). -/
def ReadFirstHeaderPartFrom (m : ChannelMultiplexer) (s : Nat)
    (buffer : List Nat) : Option (ChannelMultiplexer × List Effect) :=
  let header := ParseHeader buffer
  (m.GetOrCreateChannel header.channel_id).map (fun p =>
    (p.2, [Effect.pickup p.1 s header]))

/-- Source `OpenChannel<T>(id)`: `assert(group_ != nullptr)` (a null group is the
assertion failure, modelled as `none`); then one emitter per worker rank in
order: at `MyRank()` a `LoopbackTarget(chains_.Chain(id), closer)` with the
bound `CloseLoopbackStream(id)` closure, at every other rank a
`SocketTarget(&dispatcher_, &Connection(worker_id), id)`.  The state is
returned unchanged: the body only reads `chains_`. -/
def OpenChannel (m : ChannelMultiplexer) (id : Nat) :
    Option (List EmitterTarget × ChannelMultiplexer) :=
  m.group_.map (fun g =>
    ((List.range g.size).map (fun w =>
      if w = g.myRank then EmitterTarget.loopback (m.chains_.Chain id) id
      else EmitterTarget.socket w id), m))

/-- Source `Close()`: `group_->Close();` — dereferences `group_` (null is modelled
as `none`); the registry and the store are untouched. -/
def Close (m : ChannelMultiplexer) : Option ChannelMultiplexer :=
  m.group_.map (fun g => { m with group_ := some g.Close })

end ChannelMultiplexer

/-- One externally triggered multiplexer operation, for reasoning about whole
executions: worker-side calls and reactor callbacks. -/
inductive Op where
  | connect (g : NetGroup)
  | allocateNext
  | openChannel (id : Nat)
  | headerArrive (conn : Nat) (buffer : List Nat)
  | closeLoopback (id : Nat)
  | close
deriving DecidableEq, Repr

/-- State transition of one operation (effects and return values dropped; an
operation that would dereference a null group crashes the process, leaving
the state it had). -/
def step (m : ChannelMultiplexer) : Op → ChannelMultiplexer
  | Op.connect g => (m.Connect g).1
  | Op.allocateNext => (m.AllocateNext).2
  | Op.openChannel id =>
    match m.OpenChannel id with
    | some p => p.2
    | none => m
  | Op.headerArrive c b =>
    match m.ReadFirstHeaderPartFrom c b with
    | some p => p.1
    | none => m
  | Op.closeLoopback id => (m.CloseLoopbackStream id).getD m
  | Op.close => (m.Close).getD m

/-- Run a sequence of operations from a state. -/
def run (m : ChannelMultiplexer) : List Op → ChannelMultiplexer
  | [] => m
  | op :: t => run (step m op) t

/-- Does the operation explicitly reference channel id `id` (open it, close
its loopback stream, or carry it in an inbound header)? -/
def Op.refsId : Op → Nat → Bool
  | Op.openChannel i, id => i == id
  | Op.headerArrive _ b, id => (ParseHeader b).channel_id == id
  | Op.closeLoopback i, id => i == id
  | _, _ => false

/-- Is the operation an `AllocateNext` call? -/
def Op.isAllocNext : Op → Bool
  | Op.allocateNext => true
  | _ => false

/-- The completion counter of the channel registered for `id` (0 when no
channel exists yet). -/
def completionsOn (m : ChannelMultiplexer) (id : Nat) : Nat :=
  match lookupA m.channels_ id with
  | some ch => ch.completions
  | none => 0

/-- The `expected_peer_count` of the channel registered for `id` (0 when no
channel exists yet). -/
def expectedOn (m : ChannelMultiplexer) (id : Nat) : Nat :=
  match lookupA m.channels_ id with
  | some ch => ch.expected_peers
  | none => 0

/-! ## Helper lemmas -/

theorem lookupA_nil {β : Type} (id : Nat) : lookupA ([] : List (Nat × β)) id = none := rfl

theorem lookupA_cons {β : Type} (k : Nat) (v : β) (rest : List (Nat × β)) (id : Nat) :
    lookupA ((k, v) :: rest) id = if id = k then some v else lookupA rest id := rfl

/-- Lookup through the in-place value update used by `CloseLoopbackStream`. -/
theorem lookupA_mapUpdate {β : Type} (l : List (Nat × β)) (i j : Nat) (f : β → β) :
    lookupA (l.map (fun q => if q.1 = i then (q.1, f q.2) else q)) j =
      if j = i then (lookupA l j).map f else lookupA l j := by
  induction l with
  | nil => simp [lookupA]
  | cons p rest ih =>
    obtain ⟨k, v⟩ := p
    rw [List.map_cons]
    by_cases hk : k = i
    · subst hk
      rw [show (if (k, v).1 = k then ((k, v).1, f (k, v).2) else (k, v)) = (k, f v) by simp]
      by_cases hj : j = k
      · subst hj
        simp [lookupA]
      · simp [lookupA, hj, ih]
    · rw [show (if (k, v).1 = i then ((k, v).1, f (k, v).2) else (k, v)) = (k, v) by simp [hk]]
      by_cases hj : j = k
      · subst hj
        simp [lookupA, hk]
      · simp [lookupA, hj, ih]

namespace BufferChainManager

theorem Contains_Allocate_self (m : BufferChainManager) (id : Nat) :
    (m.Allocate id).Contains id = true := by
  simp only [Allocate, Contains]
  split_ifs with h
  · exact h
  · simp [lookupA]

theorem Contains_Allocate_mono (m : BufferChainManager) (id j : Nat)
    (h : m.Contains j = true) : (m.Allocate id).Contains j = true := by
  simp only [Allocate, Contains] at *
  split_ifs with hc
  · exact h
  · by_cases hj : j = id
    · simp [lookupA, hj]
    · simpa [lookupA, hj] using h

theorem Contains_Allocate_other (m : BufferChainManager) (id j : Nat) (hj : j ≠ id) :
    (m.Allocate id).Contains j = m.Contains j := by
  simp only [Allocate, Contains]
  split_ifs with hc
  · rfl
  · simp [lookupA, hj]

theorem next_id_Allocate (m : BufferChainManager) (id : Nat) :
    (m.Allocate id).next_id = m.next_id := by
  simp only [Allocate]
  split_ifs <;> rfl

end BufferChainManager

namespace ChannelMultiplexer

/-- The chain registry after the conditional allocation in
`GetOrCreateChannel` always contains `id`. -/
theorem ensured_contains (m : ChannelMultiplexer) (id : Nat) :
    (if m.chains_.Contains id then m.chains_ else m.chains_.Allocate id).Contains id = true := by
  split_ifs with h
  · exact h
  · exact m.chains_.Contains_Allocate_self id

theorem getOrCreate_isSome (m : ChannelMultiplexer) (id : Nat) :
    (m.GetOrCreateChannel id).isSome = (m.HasChannel id || m.group_.isSome) := by
  unfold GetOrCreateChannel HasChannel
  cases hl : lookupA m.channels_ id <;> cases hg : m.group_ <;> simp [hl, hg]

/-- Applying `GetOrCreateChannel` to a registered id returns that channel and leaves
the state untouched. -/
theorem getOrCreate_found {m : ChannelMultiplexer} {id : Nat} {ch : Channel}
    (h : lookupA m.channels_ id = some ch) :
    m.GetOrCreateChannel id = some (ch, m) := by
  unfold GetOrCreateChannel
  simp [h]

/-- Applying `GetOrCreateChannel` to an unregistered id (with a connected group)
allocates the chain if absent and registers a fresh channel with
`expected_peers = group size`. -/
theorem getOrCreate_notfound {m : ChannelMultiplexer} {id : Nat} {g : NetGroup}
    (h : lookupA m.channels_ id = none) (hg : m.group_ = some g) :
    m.GetOrCreateChannel id =
      some (⟨id, g.size, 0,
              (if m.chains_.Contains id then m.chains_ else m.chains_.Allocate id).Chain id⟩,
            { m with
                chains_ := if m.chains_.Contains id then m.chains_ else m.chains_.Allocate id,
                channels_ :=
                  (id, ⟨id, g.size, 0,
                    (if m.chains_.Contains id then m.chains_ else m.chains_.Allocate id).Chain id⟩)
                    :: m.channels_ }) := by
  unfold GetOrCreateChannel
  simp [h, hg]

theorem step_openChannel_eq (m : ChannelMultiplexer) (id : Nat) :
    step m (Op.openChannel id) = m := by
  unfold step OpenChannel
  cases hg : m.group_ <;> simp [hg]

end ChannelMultiplexer

/-- Filtering one present element out of `range n` leaves `n - 1` items. -/
theorem length_filter_range (n r : Nat) (h : r < n) :
    ((List.range n).filter (fun i => i != r)).length = n - 1 := by
  induction n with
  | zero => exact absurd h (Nat.not_lt_zero r)
  | succ n ih =>
    rw [List.range_succ, List.filter_append, List.length_append]
    by_cases hr : r = n
    · subst hr
      rw [List.filter_eq_self.mpr ?_]
      · simp
      · intro a ha
        simp only [List.mem_range] at ha
        simp only [bne_iff_ne, ne_eq, decide_eq_true_eq]
        omega
    · have h' : r < n := by omega
      have hn : (List.filter (fun i => i != r) [n]) = [n] := by
        have hb : (n != r) = true := bne_iff_ne.mpr (Ne.symm hr)
        simp [List.filter, hb]
      rw [ih h', hn]
      simp only [List.length_singleton]
      omega

theorem leEncode_length (k v : Nat) : (leEncode k v).length = k := by
  induction k generalizing v with
  | zero => rfl
  | succ k ih => simp [leEncode, ih]

theorem serializeHeader_length (h : StreamBlockHeader) :
    (serializeHeader h).length = headerWireSize := by
  simp [serializeHeader, headerWireSize, sizeofExpectedBytes, sizeofChannelId, leEncode_length]

namespace ChannelMultiplexer

/-! ## Claim theorems -/

/-- C10: `OpenChannel` asserts a non-null group, so it fails exactly when no
group is attached; `Close` dereferences the group with no guard and fails
under the same condition; `CloseLoopbackStream` dereferences the group only
in the create branch of `GetOrCreateChannel`, so it fails exactly when the
group is null and no channel exists for the id.  With a group attached
(`Connect` called, `Close` not yet) all three succeed: the assertion-failure
branch is unreachable. -/
theorem null_group_preconditions (m : ChannelMultiplexer) (id : Nat) :
    (m.OpenChannel id).isSome = m.group_.isSome ∧
    (m.Close).isSome = m.group_.isSome ∧
    (m.CloseLoopbackStream id).isSome = (m.HasChannel id || m.group_.isSome) := by
  refine ⟨?_, ?_, ?_⟩
  · unfold OpenChannel
    cases m.group_ <;> simp
  · unfold Close
    cases m.group_ <;> simp
  · have h := getOrCreate_isSome m id
    unfold CloseLoopbackStream
    cases hg : m.GetOrCreateChannel id <;> rw [hg] at h <;> simpa using h

/-- C5: `Close` only calls `group_->Close()`: the group's connections are
torn down (`closed` flips to true) while the channel registry, the
buffer-chain store, and hence the results of `HasChannel`, `HasDataOn` and
`AccessData` at every id, are exactly what they were before. -/
theorem close_preserves_registry (m : ChannelMultiplexer) (g : NetGroup)
    (hg : m.group_ = some g) :
    m.Close = some { m with group_ := some g.Close } ∧
    (g.Close).closed = true ∧
    ChannelMultiplexer.HasChannel { m with group_ := some g.Close } = m.HasChannel ∧
    ChannelMultiplexer.HasDataOn { m with group_ := some g.Close } = m.HasDataOn ∧
    ChannelMultiplexer.AccessData { m with group_ := some g.Close } = m.AccessData := by
  refine ⟨?_, rfl, rfl, rfl, rfl⟩
  unfold Close
  rw [hg]
  rfl

/-- Witness for C5: a concrete connected multiplexer. -/
theorem close_preserves_registry_witness :
    (⟨[], ⟨0, []⟩, some ⟨2, 0, false⟩⟩ : ChannelMultiplexer).Close
        = some { (⟨[], ⟨0, []⟩, some ⟨2, 0, false⟩⟩ : ChannelMultiplexer) with
                   group_ := some (NetGroup.Close ⟨2, 0, false⟩) } ∧
    (NetGroup.Close ⟨2, 0, false⟩).closed = true ∧
    ChannelMultiplexer.HasChannel
        { (⟨[], ⟨0, []⟩, some ⟨2, 0, false⟩⟩ : ChannelMultiplexer) with
            group_ := some (NetGroup.Close ⟨2, 0, false⟩) }
      = ChannelMultiplexer.HasChannel (⟨[], ⟨0, []⟩, some ⟨2, 0, false⟩⟩ : ChannelMultiplexer) ∧
    ChannelMultiplexer.HasDataOn
        { (⟨[], ⟨0, []⟩, some ⟨2, 0, false⟩⟩ : ChannelMultiplexer) with
            group_ := some (NetGroup.Close ⟨2, 0, false⟩) }
      = ChannelMultiplexer.HasDataOn (⟨[], ⟨0, []⟩, some ⟨2, 0, false⟩⟩ : ChannelMultiplexer) ∧
    ChannelMultiplexer.AccessData
        { (⟨[], ⟨0, []⟩, some ⟨2, 0, false⟩⟩ : ChannelMultiplexer) with
            group_ := some (NetGroup.Close ⟨2, 0, false⟩) }
      = ChannelMultiplexer.AccessData (⟨[], ⟨0, []⟩, some ⟨2, 0, false⟩⟩ : ChannelMultiplexer) :=
  close_preserves_registry ⟨[], ⟨0, []⟩, some ⟨2, 0, false⟩⟩ ⟨2, 0, false⟩ rfl

/-- C9: `OpenChannel` creates no Channel object and no Buffer-Chain: it
returns the state it was given, unchanged (so `HasChannel id` keeps its
value, in particular `false` for a freshly allocated id), and the loopback
emitter is bound to whatever `chains_.Chain(id)` returned without ensuring a
chain exists — the binding is `none` whenever `HasDataOn id` is false. -/
theorem openChannel_creates_nothing (m : ChannelMultiplexer) (g : NetGroup) (id : Nat)
    (hg : m.group_ = some g) :
    m.OpenChannel id =
      some ((List.range g.size).map (fun w =>
        if w = g.myRank then EmitterTarget.loopback (m.chains_.Chain id) id
        else EmitterTarget.socket w id), m) ∧
    (m.HasDataOn id = false → m.chains_.Chain id = none) := by
  constructor
  · unfold OpenChannel
    rw [hg]
    rfl
  · intro h
    unfold HasDataOn BufferChainManager.Contains at h
    unfold BufferChainManager.Chain
    cases hx : lookupA m.chains_.chains id
    · rfl
    · rw [hx] at h
      simp at h

/-- Witness for C9: opening id 7 on a concrete connected multiplexer with an
empty store. -/
theorem openChannel_creates_nothing_witness :
    (⟨[], ⟨0, []⟩, some ⟨2, 0, false⟩⟩ : ChannelMultiplexer).OpenChannel 7 =
      some ((List.range (NetGroup.mk 2 0 false).size).map (fun w =>
        if w = (NetGroup.mk 2 0 false).myRank then
          EmitterTarget.loopback
            ((⟨[], ⟨0, []⟩, some ⟨2, 0, false⟩⟩ : ChannelMultiplexer).chains_.Chain 7) 7
        else EmitterTarget.socket w 7),
        (⟨[], ⟨0, []⟩, some ⟨2, 0, false⟩⟩ : ChannelMultiplexer)) ∧
    ((⟨[], ⟨0, []⟩, some ⟨2, 0, false⟩⟩ : ChannelMultiplexer).HasDataOn 7 = false →
      (⟨[], ⟨0, []⟩, some ⟨2, 0, false⟩⟩ : ChannelMultiplexer).chains_.Chain 7 = none) :=
  openChannel_creates_nothing ⟨[], ⟨0, []⟩, some ⟨2, 0, false⟩⟩ ⟨2, 0, false⟩ 7 rfl

/-- C2: `Connect` stores the group and arms, for every peer index other than
the caller's own rank, exactly one asynchronous read of exactly one frame
header's worth of bytes (`sizeof(expected_bytes) + sizeof(channel_id)`) on
that peer's connection; nothing is armed for the self index, and in total
exactly N-1 pending reads are registered with the reactor. -/
theorem connect_arms_one_read_per_peer (m : ChannelMultiplexer) (g : NetGroup)
    (hr : g.myRank < g.size) :
    (m.Connect g).1 = { m with group_ := some g } ∧
    (m.Connect g).2.length = g.size - 1 ∧
    (m.Connect g).2.Nodup ∧
    (∀ i : Nat, (Effect.asyncRead i headerWireSize ∈ (m.Connect g).2) ↔
        (i < g.size ∧ i ≠ g.myRank)) ∧
    (∀ e ∈ (m.Connect g).2, ∃ i, i ≠ g.myRank ∧ e = Effect.asyncRead i headerWireSize) := by
  have hinj : Function.Injective ExpectHeaderFrom := by
    intro a b hab
    simpa [ExpectHeaderFrom] using hab
  refine ⟨rfl, ?_, ?_, ?_, ?_⟩
  · show (((List.range g.size).filter (fun i => i != g.myRank)).map ExpectHeaderFrom).length
        = g.size - 1
    rw [List.length_map]
    exact length_filter_range g.size g.myRank hr
  · exact ((List.nodup_range g.size).filter _).map hinj
  · intro i
    show Effect.asyncRead i headerWireSize
        ∈ ((List.range g.size).filter (fun j => j != g.myRank)).map ExpectHeaderFrom ↔ _
    simp only [List.mem_map, List.mem_filter, List.mem_range, ExpectHeaderFrom,
      Effect.asyncRead.injEq, bne_iff_ne, ne_eq]
    constructor
    · rintro ⟨a, ⟨ha, hne⟩, rfl, -⟩
      exact ⟨ha, hne⟩
    · rintro ⟨hi, hne⟩
      exact ⟨i, ⟨hi, hne⟩, rfl, trivial⟩
  · intro e he
    obtain ⟨a, ha, rfl⟩ := List.mem_map.mp he
    refine ⟨a, ?_, rfl⟩
    have := (List.mem_filter.mp ha).2
    simpa using this

/-- Witness for C2: connecting a fresh multiplexer to a group of size 3 with
rank 1. -/
theorem connect_arms_one_read_per_peer_witness :
    (ChannelMultiplexer.init.Connect ⟨3, 1, false⟩).1
        = { ChannelMultiplexer.init with group_ := some ⟨3, 1, false⟩ } ∧
    (ChannelMultiplexer.init.Connect ⟨3, 1, false⟩).2.length = (3 : Nat) - 1 ∧
    (ChannelMultiplexer.init.Connect ⟨3, 1, false⟩).2.Nodup ∧
    (∀ i : Nat, (Effect.asyncRead i headerWireSize
        ∈ (ChannelMultiplexer.init.Connect ⟨3, 1, false⟩).2) ↔ (i < 3 ∧ i ≠ 1)) ∧
    (∀ e ∈ (ChannelMultiplexer.init.Connect ⟨3, 1, false⟩).2,
        ∃ i, i ≠ 1 ∧ e = Effect.asyncRead i headerWireSize) :=
  connect_arms_one_read_per_peer ChannelMultiplexer.init ⟨3, 1, false⟩ (by decide)

/-- C1: on completion of a header read on any connection, the multiplexer
parses the frame header from the received bytes, looks up or lazily creates
the channel for `header.channel_id` (creating that id's buffer chain too if
it is absent, and setting `expected_peers` to the group's size — including
self — when it creates), and delegates `PickupStream` to that channel,
passing the originating connection and the parsed header; this holds whether
or not the id was seen before. -/
theorem readHeader_creates_and_delegates (m : ChannelMultiplexer) (g : NetGroup)
    (s : Nat) (buffer : List Nat) (hg : m.group_ = some g) :
    ∃ ch m', m.ReadFirstHeaderPartFrom s buffer
        = some (m', [Effect.pickup ch s (ParseHeader buffer)]) ∧
      lookupA m'.channels_ (ParseHeader buffer).channel_id = some ch ∧
      m'.HasChannel (ParseHeader buffer).channel_id = true ∧
      (m.HasChannel (ParseHeader buffer).channel_id = false →
        ch.id = (ParseHeader buffer).channel_id ∧ ch.expected_peers = g.size ∧
        ch.completions = 0 ∧ m'.HasDataOn (ParseHeader buffer).channel_id = true) ∧
      (m.HasChannel (ParseHeader buffer).channel_id = true → m' = m) := by
  have hread : m.ReadFirstHeaderPartFrom s buffer
      = (m.GetOrCreateChannel (ParseHeader buffer).channel_id).map
          (fun p => (p.2, [Effect.pickup p.1 s (ParseHeader buffer)])) := rfl
  cases hl : lookupA m.channels_ (ParseHeader buffer).channel_id with
  | some c =>
    refine ⟨c, m, ?_, hl, ?_, ?_, fun _ => rfl⟩
    · rw [hread, getOrCreate_found hl]
      rfl
    · unfold HasChannel
      rw [hl]
      rfl
    · intro hf
      unfold HasChannel at hf
      rw [hl] at hf
      simp at hf
  | none =>
    refine ⟨⟨(ParseHeader buffer).channel_id, g.size, 0,
        (if m.chains_.Contains (ParseHeader buffer).channel_id then m.chains_
         else m.chains_.Allocate (ParseHeader buffer).channel_id).Chain
          (ParseHeader buffer).channel_id⟩,
      { m with
          chains_ := if m.chains_.Contains (ParseHeader buffer).channel_id then m.chains_
            else m.chains_.Allocate (ParseHeader buffer).channel_id,
          channels_ := ((ParseHeader buffer).channel_id,
            ⟨(ParseHeader buffer).channel_id, g.size, 0,
              (if m.chains_.Contains (ParseHeader buffer).channel_id then m.chains_
               else m.chains_.Allocate (ParseHeader buffer).channel_id).Chain
                (ParseHeader buffer).channel_id⟩) :: m.channels_ },
      ?_, ?_, ?_, ?_, ?_⟩
    · rw [hread, getOrCreate_notfound hl hg]
      rfl
    · simp [lookupA]
    · unfold HasChannel
      simp [lookupA]
    · intro hf
      exact ⟨rfl, rfl, rfl, ensured_contains m (ParseHeader buffer).channel_id⟩
    · intro ht
      unfold HasChannel at ht
      rw [hl] at ht
      simp at ht

/-- Witness for C1: a sixteen-zero-byte header (channel id 0, payload length
0) arriving on connection 1 of a fresh multiplexer connected to a group of
size 3. -/
theorem readHeader_creates_and_delegates_witness :
    ∃ ch m', (⟨[], ⟨0, []⟩, some ⟨3, 0, false⟩⟩ : ChannelMultiplexer).ReadFirstHeaderPartFrom
          1 (List.replicate 16 0)
        = some (m', [Effect.pickup ch 1 (ParseHeader (List.replicate 16 0))]) ∧
      lookupA m'.channels_ (ParseHeader (List.replicate 16 0)).channel_id = some ch ∧
      m'.HasChannel (ParseHeader (List.replicate 16 0)).channel_id = true ∧
      ((⟨[], ⟨0, []⟩, some ⟨3, 0, false⟩⟩ : ChannelMultiplexer).HasChannel
          (ParseHeader (List.replicate 16 0)).channel_id = false →
        ch.id = (ParseHeader (List.replicate 16 0)).channel_id ∧
        ch.expected_peers = (NetGroup.mk 3 0 false).size ∧
        ch.completions = 0 ∧
        m'.HasDataOn (ParseHeader (List.replicate 16 0)).channel_id = true) ∧
      ((⟨[], ⟨0, []⟩, some ⟨3, 0, false⟩⟩ : ChannelMultiplexer).HasChannel
          (ParseHeader (List.replicate 16 0)).channel_id = true →
        m' = (⟨[], ⟨0, []⟩, some ⟨3, 0, false⟩⟩ : ChannelMultiplexer)) :=
  readHeader_creates_and_delegates ⟨[], ⟨0, []⟩, some ⟨3, 0, false⟩⟩ ⟨3, 0, false⟩
    1 (List.replicate 16 0) rfl

/-- The closer `CloseLoopbackStream(id)` locates or creates the channel for `id`
(creating it with `expected_peers` = group size) and calls its
`CloseLoopback`, which bumps the completion counter by exactly one. -/
theorem closeLoopback_effect (m : ChannelMultiplexer) (g : NetGroup) (id : Nat)
    (hg : m.group_ = some g) :
    ∃ m'', m.CloseLoopbackStream id = some m'' ∧
      completionsOn m'' id = completionsOn m id + 1 ∧
      m''.HasChannel id = true ∧
      (m.HasChannel id = false → expectedOn m'' id = g.size) := by
  cases hl : lookupA m.channels_ id with
  | some c =>
    refine ⟨{ m with channels_ :=
        (m.channels_.map (fun q => if q.1 = id then (q.1, q.2.CloseLoopback) else q)) },
      ?_, ?_, ?_, ?_⟩
    · unfold CloseLoopbackStream
      rw [getOrCreate_found hl]
      rfl
    · unfold completionsOn
      rw [lookupA_mapUpdate, if_pos rfl, hl]
      simp [Channel.CloseLoopback]
    · simp [HasChannel, lookupA_mapUpdate, hl]
    · intro hf
      unfold HasChannel at hf
      rw [hl] at hf
      simp at hf
  | none =>
    obtain ⟨ch, m₁, hoc⟩ :
        ∃ ch m₁, m.GetOrCreateChannel id = some (ch, m₁) ∧
          ch.expected_peers = g.size ∧ ch.completions = 0 ∧
          lookupA m₁.channels_ id = some ch := by
      rw [getOrCreate_notfound hl hg]
      exact ⟨_, _, rfl, rfl, rfl, by simp [lookupA]⟩
    obtain ⟨hoc, hexp, hc0, hl1⟩ := hoc
    refine ⟨{ m₁ with channels_ :=
        (m₁.channels_.map (fun q => if q.1 = id then (q.1, q.2.CloseLoopback) else q)) },
      ?_, ?_, ?_, ?_⟩
    · unfold CloseLoopbackStream
      rw [hoc]
      rfl
    · unfold completionsOn
      rw [lookupA_mapUpdate, if_pos rfl, hl1, hl]
      simp [Channel.CloseLoopback, hc0]
    · simp [HasChannel, lookupA_mapUpdate, hl1]
    · intro hf
      unfold expectedOn
      rw [lookupA_mapUpdate, if_pos rfl, hl1]
      simpa [Channel.CloseLoopback] using hexp

/-- C4: `OpenChannel(id)` yields exactly N delivery targets in rank order: at
the caller's own rank a loopback target bound directly to the id's chain
whose completion closure is `CloseLoopbackStream(id)` — which locates or
creates the channel for `id` and calls its `CloseLoopback`, bumping the
completion counter — and at every other rank a socket target that frames
each write with a frame header carrying `id` and the payload length over
that rank's connection. -/
theorem openChannel_targets (m : ChannelMultiplexer) (g : NetGroup) (id : Nat)
    (hg : m.group_ = some g) :
    ∃ ts, m.OpenChannel id = some (ts, m) ∧
      ts.length = g.size ∧
      (∀ w, w < g.size →
        ts[w]? = some (if w = g.myRank
          then EmitterTarget.loopback (m.chains_.Chain id) id
          else EmitterTarget.socket w id)) ∧
      (∃ m'', m.CloseLoopbackStream id = some m'' ∧
        completionsOn m'' id = completionsOn m id + 1 ∧
        m''.HasChannel id = true ∧
        (m.HasChannel id = false → expectedOn m'' id = g.size)) ∧
      (∀ payload : List Nat,
        (socketWrite id payload).take headerWireSize
            = serializeHeader ⟨payload.length, id⟩ ∧
        (socketWrite id payload).drop headerWireSize = payload) := by
  refine ⟨(List.range g.size).map (fun w =>
      if w = g.myRank then EmitterTarget.loopback (m.chains_.Chain id) id
      else EmitterTarget.socket w id),
    ?_, ?_, ?_, closeLoopback_effect m g id hg, ?_⟩
  · unfold OpenChannel
    rw [hg]
    rfl
  · rw [List.length_map, List.length_range]
  · intro w hw
    rw [List.getElem?_map, List.getElem?_range hw]
    rfl
  · intro payload
    constructor
    · rw [show headerWireSize = (serializeHeader ⟨payload.length, id⟩).length from
        (serializeHeader_length _).symm]
      exact List.take_left _ _
    · rw [show headerWireSize = (serializeHeader ⟨payload.length, id⟩).length from
        (serializeHeader_length _).symm]
      exact List.drop_left _ _

/-- Witness for C4: opening channel 7 on a concrete connected multiplexer in
a group of size 2 with rank 0. -/
theorem openChannel_targets_witness :
    ∃ ts, (⟨[], ⟨0, []⟩, some ⟨2, 0, false⟩⟩ : ChannelMultiplexer).OpenChannel 7
        = some (ts, (⟨[], ⟨0, []⟩, some ⟨2, 0, false⟩⟩ : ChannelMultiplexer)) ∧
      ts.length = (NetGroup.mk 2 0 false).size ∧
      (∀ w, w < (NetGroup.mk 2 0 false).size →
        ts[w]? = some (if w = (NetGroup.mk 2 0 false).myRank
          then EmitterTarget.loopback
            ((⟨[], ⟨0, []⟩, some ⟨2, 0, false⟩⟩ : ChannelMultiplexer).chains_.Chain 7) 7
          else EmitterTarget.socket w 7)) ∧
      (∃ m'', (⟨[], ⟨0, []⟩, some ⟨2, 0, false⟩⟩ : ChannelMultiplexer).CloseLoopbackStream 7
          = some m'' ∧
        completionsOn m'' 7
          = completionsOn (⟨[], ⟨0, []⟩, some ⟨2, 0, false⟩⟩ : ChannelMultiplexer) 7 + 1 ∧
        m''.HasChannel 7 = true ∧
        ((⟨[], ⟨0, []⟩, some ⟨2, 0, false⟩⟩ : ChannelMultiplexer).HasChannel 7 = false →
          expectedOn m'' 7 = (NetGroup.mk 2 0 false).size)) ∧
      (∀ payload : List Nat,
        (socketWrite 7 payload).take headerWireSize
            = serializeHeader ⟨payload.length, 7⟩ ∧
        (socketWrite 7 payload).drop headerWireSize = payload) :=
  openChannel_targets ⟨[], ⟨0, []⟩, some ⟨2, 0, false⟩⟩ ⟨2, 0, false⟩ 7 rfl

/-! ### Lemmas about `step` and `run` -/

theorem getOrCreate_state {m : ChannelMultiplexer} {i : Nat} {ch : Channel}
    {m' : ChannelMultiplexer} (h : m.GetOrCreateChannel i = some (ch, m')) :
    (m' = m ∧ lookupA m.channels_ i = some ch) ∨
    (∃ g, m.group_ = some g ∧ lookupA m.channels_ i = none ∧
      ch = ⟨i, g.size, 0,
        (if m.chains_.Contains i then m.chains_ else m.chains_.Allocate i).Chain i⟩ ∧
      m' = { m with
        chains_ := if m.chains_.Contains i then m.chains_ else m.chains_.Allocate i,
        channels_ := (i, ch) :: m.channels_ }) := by
  cases hl : lookupA m.channels_ i with
  | some c =>
    rw [getOrCreate_found hl] at h
    simp only [Option.some.injEq, Prod.mk.injEq] at h
    obtain ⟨rfl, rfl⟩ := h
    exact Or.inl ⟨rfl, rfl⟩
  | none =>
    cases hg : m.group_ with
    | none =>
      unfold GetOrCreateChannel at h
      rw [hl, hg] at h
      cases h
    | some g =>
      rw [getOrCreate_notfound hl hg] at h
      simp only [Option.some.injEq, Prod.mk.injEq] at h
      obtain ⟨rfl, rfl⟩ := h
      refine Or.inr ⟨g, rfl, rfl, rfl, ?_⟩
      rw [hg]

theorem getOrCreate_next_id {m : ChannelMultiplexer} {i : Nat} {ch : Channel}
    {m' : ChannelMultiplexer} (h : m.GetOrCreateChannel i = some (ch, m')) :
    m'.chains_.next_id = m.chains_.next_id := by
  rcases getOrCreate_state h with ⟨rfl, -⟩ | ⟨g, -, -, -, rfl⟩
  · rfl
  · show (if m.chains_.Contains i then m.chains_ else m.chains_.Allocate i).next_id = _
    split_ifs with hc
    · rfl
    · exact m.chains_.next_id_Allocate i

theorem getOrCreate_preserves_other {m : ChannelMultiplexer} {i : Nat} {ch : Channel}
    {m' : ChannelMultiplexer} (h : m.GetOrCreateChannel i = some (ch, m'))
    (id : Nat) (hne : id ≠ i) :
    lookupA m'.channels_ id = lookupA m.channels_ id ∧
    m'.HasDataOn id = m.HasDataOn id := by
  rcases getOrCreate_state h with ⟨rfl, -⟩ | ⟨g, -, -, -, rfl⟩
  · exact ⟨rfl, rfl⟩
  · constructor
    · show lookupA ((i, _) :: m.channels_) id = lookupA m.channels_ id
      simp [lookupA, hne]
    · show (if m.chains_.Contains i then m.chains_ else m.chains_.Allocate i).Contains id
          = m.chains_.Contains id
      split_ifs with hc
      · rfl
      · exact m.chains_.Contains_Allocate_other i id hne

theorem getOrCreate_preserves_inv {m : ChannelMultiplexer} {i : Nat} {ch : Channel}
    {m' : ChannelMultiplexer} (h : m.GetOrCreateChannel i = some (ch, m'))
    (hinv : ∀ j, m.HasChannel j = true → m.HasDataOn j = true) :
    ∀ j, m'.HasChannel j = true → m'.HasDataOn j = true := by
  intro j hj
  by_cases hji : j = i
  · subst hji
    rcases getOrCreate_state h with ⟨rfl, -⟩ | ⟨g, -, -, -, rfl⟩
    · exact hinv j hj
    · exact ensured_contains m j
  · obtain ⟨hc, hd⟩ := getOrCreate_preserves_other h j hji
    rw [hd]
    apply hinv
    unfold HasChannel at hj ⊢
    rw [hc] at hj
    exact hj

theorem hasChannel_after_update (m' : ChannelMultiplexer) (i j : Nat) :
    (lookupA (m'.channels_.map (fun q => if q.1 = i then (q.1, q.2.CloseLoopback) else q)) j).isSome
      = (lookupA m'.channels_ j).isSome := by
  rw [lookupA_mapUpdate]
  split_ifs with h
  · exact Option.isSome_map ..
  · rfl

theorem readHeader_state {m : ChannelMultiplexer} {s : Nat} {b : List Nat}
    {m₁ : ChannelMultiplexer} {effs : List Effect}
    (hr : m.ReadFirstHeaderPartFrom s b = some (m₁, effs)) :
    ∃ ch, m.GetOrCreateChannel (ParseHeader b).channel_id = some (ch, m₁) := by
  have hr' : (m.GetOrCreateChannel (ParseHeader b).channel_id).map
      (fun p => (p.2, [Effect.pickup p.1 s (ParseHeader b)])) = some (m₁, effs) := hr
  cases hoc : m.GetOrCreateChannel (ParseHeader b).channel_id with
  | none =>
    rw [hoc] at hr'
    cases hr'
  | some q =>
    rw [hoc] at hr'
    simp only [Option.map_some', Option.some.injEq, Prod.mk.injEq] at hr'
    obtain ⟨h1, -⟩ := hr'
    exact ⟨q.1, by rw [← h1]⟩

theorem closeLoopbackStream_state {m : ChannelMultiplexer} {i : Nat}
    {m'' : ChannelMultiplexer} (hr : m.CloseLoopbackStream i = some m'') :
    ∃ ch m', m.GetOrCreateChannel i = some (ch, m') ∧
      m'' = { m' with channels_ :=
        (m'.channels_.map (fun q => if q.1 = i then (q.1, q.2.CloseLoopback) else q)) } := by
  unfold CloseLoopbackStream at hr
  cases hoc : m.GetOrCreateChannel i with
  | none =>
    rw [hoc] at hr
    cases hr
  | some q =>
    rw [hoc] at hr
    simp only [Option.map_some', Option.some.injEq] at hr
    exact ⟨q.1, q.2, rfl, hr.symm⟩

end ChannelMultiplexer

theorem step_next_id_le (m : ChannelMultiplexer) (op : Op) :
    m.chains_.next_id ≤ (step m op).chains_.next_id := by
  cases op with
  | connect g => exact Nat.le_refl _
  | allocateNext =>
    show m.chains_.next_id ≤ m.chains_.next_id + 1
    exact Nat.le_succ _
  | openChannel id =>
    rw [ChannelMultiplexer.step_openChannel_eq]
  | headerArrive c b =>
    simp only [step]
    cases hr : m.ReadFirstHeaderPartFrom c b with
    | none => exact Nat.le_refl _
    | some p =>
      obtain ⟨m₁, effs⟩ := p
      obtain ⟨ch, hoc⟩ := ChannelMultiplexer.readHeader_state hr
      exact Nat.le_of_eq (ChannelMultiplexer.getOrCreate_next_id hoc).symm
  | closeLoopback i =>
    simp only [step]
    cases hr : m.CloseLoopbackStream i with
    | none => exact Nat.le_refl _
    | some m'' =>
      obtain ⟨ch, m', hoc, rfl⟩ := ChannelMultiplexer.closeLoopbackStream_state hr
      exact Nat.le_of_eq (ChannelMultiplexer.getOrCreate_next_id hoc).symm
  | close =>
    simp only [step]
    unfold ChannelMultiplexer.Close
    cases m.group_ <;> exact Nat.le_refl _

theorem run_next_id_le (m : ChannelMultiplexer) (t : List Op) :
    m.chains_.next_id ≤ (run m t).chains_.next_id := by
  induction t generalizing m with
  | nil => exact Nat.le_refl _
  | cons op t ih => exact Nat.le_trans (step_next_id_le m op) (ih (step m op))

theorem step_next_id_eq (m : ChannelMultiplexer) (op : Op) :
    (step m op).chains_.next_id
      = m.chains_.next_id + (if Op.isAllocNext op then 1 else 0) := by
  cases op with
  | connect g => rfl
  | allocateNext => rfl
  | openChannel i =>
    rw [ChannelMultiplexer.step_openChannel_eq]
    rfl
  | headerArrive c b =>
    simp only [step]
    cases hr : m.ReadFirstHeaderPartFrom c b with
    | none => rfl
    | some p =>
      obtain ⟨m₁, effs⟩ := p
      obtain ⟨ch, hoc⟩ := ChannelMultiplexer.readHeader_state hr
      simpa [Op.isAllocNext] using ChannelMultiplexer.getOrCreate_next_id hoc
  | closeLoopback i =>
    simp only [step]
    cases hr : m.CloseLoopbackStream i with
    | none => rfl
    | some m'' =>
      obtain ⟨ch, m', hoc, rfl⟩ := ChannelMultiplexer.closeLoopbackStream_state hr
      simpa [Op.isAllocNext] using ChannelMultiplexer.getOrCreate_next_id hoc
  | close =>
    simp only [step]
    unfold ChannelMultiplexer.Close
    cases m.group_ <;> rfl

/-- A step whose operation does not reference `id` (and, for `AllocateNext`,
does not allocate `id`) leaves both queries at `id` unchanged. -/
theorem step_preserves_unrefd (m : ChannelMultiplexer) (op : Op) (id : Nat)
    (href : op.refsId id = false)
    (hfresh : op = Op.allocateNext → id ≠ m.chains_.next_id) :
    (step m op).HasChannel id = m.HasChannel id ∧
    (step m op).HasDataOn id = m.HasDataOn id := by
  cases op with
  | connect g => exact ⟨rfl, rfl⟩
  | allocateNext =>
    refine ⟨rfl, ?_⟩
    exact m.chains_.Contains_Allocate_other m.chains_.next_id id (hfresh rfl)
  | openChannel i =>
    rw [ChannelMultiplexer.step_openChannel_eq]
    exact ⟨rfl, rfl⟩
  | headerArrive c b =>
    have h' : ((ParseHeader b).channel_id == id) = false := href
    have hne : id ≠ (ParseHeader b).channel_id := Ne.symm (ne_of_beq_false h')
    simp only [step]
    cases hr : m.ReadFirstHeaderPartFrom c b with
    | none => exact ⟨rfl, rfl⟩
    | some p =>
      obtain ⟨m₁, effs⟩ := p
      obtain ⟨ch, hoc⟩ := ChannelMultiplexer.readHeader_state hr
      obtain ⟨h1, h2⟩ := ChannelMultiplexer.getOrCreate_preserves_other hoc id hne
      constructor
      · unfold ChannelMultiplexer.HasChannel
        rw [h1]
      · exact h2
  | closeLoopback i =>
    have h' : (i == id) = false := href
    have hne : id ≠ i := Ne.symm (ne_of_beq_false h')
    simp only [step]
    cases hr : m.CloseLoopbackStream i with
    | none => exact ⟨rfl, rfl⟩
    | some m'' =>
      obtain ⟨ch, m', hoc, rfl⟩ := ChannelMultiplexer.closeLoopbackStream_state hr
      obtain ⟨h1, h2⟩ := ChannelMultiplexer.getOrCreate_preserves_other hoc id hne
      constructor
      · show (lookupA (m'.channels_.map
            (fun q => if q.1 = i then (q.1, q.2.CloseLoopback) else q)) id).isSome
          = m.HasChannel id
        rw [ChannelMultiplexer.hasChannel_after_update m' i id, h1]
        rfl
      · exact h2
  | close =>
    simp only [step]
    unfold ChannelMultiplexer.Close
    cases m.group_ <;> exact ⟨rfl, rfl⟩

/-- Running operations that never reference `id`, from a state with no
channel and no chain at `id` and in which `id` cannot be hit by the
allocator, leaves both queries false. -/
theorem run_preserves_untouched (t : List Op) (m : ChannelMultiplexer) (id : Nat)
    (hch : m.HasChannel id = false) (hda : m.HasDataOn id = false)
    (hrefs : ∀ op ∈ t, op.refsId id = false)
    (hfresh : id < m.chains_.next_id ∨ m.chains_.next_id + t.countP Op.isAllocNext ≤ id) :
    (run m t).HasChannel id = false ∧ (run m t).HasDataOn id = false := by
  induction t generalizing m with
  | nil => exact ⟨hch, hda⟩
  | cons op t ih =>
    have hop : op.refsId id = false := hrefs op (List.mem_cons_self op t)
    have hrest : ∀ o ∈ t, o.refsId id = false :=
      fun o ho => hrefs o (List.mem_cons_of_mem op ho)
    have hanext : op = Op.allocateNext → id ≠ m.chains_.next_id := by
      intro he
      subst he
      have hc : (Op.allocateNext :: t).countP Op.isAllocNext
          = t.countP Op.isAllocNext + 1 := by
        simp [List.countP_cons, Op.isAllocNext]
      rcases hfresh with h | h
      · omega
      · rw [hc] at h
        omega
    obtain ⟨h1, h2⟩ := step_preserves_unrefd m op id hop hanext
    have h3 := step_next_id_eq m op
    refine ih (step m op) (h1.trans hch) (h2.trans hda) hrest ?_
    have hc : (op :: t).countP Op.isAllocNext
        = t.countP Op.isAllocNext + (if Op.isAllocNext op then 1 else 0) := by
      simp [List.countP_cons]
    rcases hfresh with h | h
    · left
      rw [h3]
      omega
    · right
      rw [hc] at h
      rw [h3]
      omega

/-- Every step preserves the channel-implies-chain invariant. -/
theorem step_preserves_chanInv (m : ChannelMultiplexer) (op : Op)
    (hinv : ∀ j, m.HasChannel j = true → m.HasDataOn j = true) :
    ∀ j, (step m op).HasChannel j = true → (step m op).HasDataOn j = true := by
  cases op with
  | connect g => exact hinv
  | allocateNext =>
    intro j hj
    exact m.chains_.Contains_Allocate_mono m.chains_.next_id j (hinv j hj)
  | openChannel i =>
    rw [ChannelMultiplexer.step_openChannel_eq]
    exact hinv
  | headerArrive c b =>
    simp only [step]
    cases hr : m.ReadFirstHeaderPartFrom c b with
    | none => exact hinv
    | some p =>
      obtain ⟨m₁, effs⟩ := p
      obtain ⟨ch, hoc⟩ := ChannelMultiplexer.readHeader_state hr
      exact ChannelMultiplexer.getOrCreate_preserves_inv hoc hinv
  | closeLoopback i =>
    simp only [step]
    cases hr : m.CloseLoopbackStream i with
    | none => exact hinv
    | some m'' =>
      obtain ⟨ch, m', hoc, rfl⟩ := ChannelMultiplexer.closeLoopbackStream_state hr
      intro j hj
      have hj' : m'.HasChannel j = true := by
        unfold ChannelMultiplexer.HasChannel
        rw [← ChannelMultiplexer.hasChannel_after_update m' i j]
        exact hj
      exact ChannelMultiplexer.getOrCreate_preserves_inv hoc hinv j hj'
  | close =>
    simp only [step]
    unfold ChannelMultiplexer.Close
    cases m.group_ <;> exact hinv

/-! ### Remaining claim theorems -/

/-- C3 (amended): `AllocateNext` returns the current value of the
process-local monotonic counter and bumps it; it eagerly creates the
Buffer-Chain for the returned id (`HasDataOn` becomes true) and creates no
Channel (`channels_` is unchanged); and across the rest of the process
lifetime the ids are strictly increasing — any later `AllocateNext`, after
any further operations, returns a strictly larger id, so ids never repeat.
`HasChannel` of the returned id keeps the value it had before the call; it
is false only provided no Channel had already been instantiated for that id
(an inbound header can create the Channel first — see the counterexample). -/
theorem allocateNext_amended (m : ChannelMultiplexer) (t : List Op) :
    (m.AllocateNext).1 = m.chains_.next_id ∧
    (m.AllocateNext).2.chains_.next_id = m.chains_.next_id + 1 ∧
    (m.AllocateNext).2.HasDataOn (m.AllocateNext).1 = true ∧
    (m.AllocateNext).2.channels_ = m.channels_ ∧
    (m.AllocateNext).1 < ((run (m.AllocateNext).2 t).AllocateNext).1 := by
  refine ⟨rfl, rfl, ?_, rfl, ?_⟩
  · exact m.chains_.Contains_Allocate_self m.chains_.next_id
  · have h := run_next_id_le (m.AllocateNext).2 t
    have h2 : (m.AllocateNext).2.chains_.next_id = m.chains_.next_id + 1 := rfl
    show m.chains_.next_id < (run (m.AllocateNext).2 t).chains_.next_id
    omega

/-- C3 as stated is false on the code: after the group is attached and a
header for channel id 0 arrives (lazily creating the Channel for id 0 while
the allocator's counter is still 0), `AllocateNext` returns id 0 and
`HasChannel` of the returned id is `true`, not `false` as the claim
requires. -/
theorem allocateNext_hasChannel_counterexample :
    (((run ChannelMultiplexer.init
        [Op.connect ⟨2, 1, false⟩,
         Op.headerArrive 0 (List.replicate 16 0)]).AllocateNext).2).HasChannel
      (((run ChannelMultiplexer.init
        [Op.connect ⟨2, 1, false⟩,
         Op.headerArrive 0 (List.replicate 16 0)]).AllocateNext).1) = true := by
  decide

/-- C7: the code performs no malformed-header validation.  On a connected
multiplexer, a header announcing payload length `2 ^ 63` for channel id 999
— an id never allocated locally, with a length beyond any sane frame size —
is accepted without any error: the header-read completion succeeds (the
connection is not failed), a Channel for id 999 is lazily created, and the
unchecked header, oversized length included, is handed to `PickupStream`. -/
theorem no_malformed_header_check :
    ((ChannelMultiplexer.init.Connect ⟨2, 1, false⟩).1).HasChannel 999 = false ∧
    ((ChannelMultiplexer.init.Connect ⟨2, 1, false⟩).1).HasDataOn 999 = false ∧
    (((ChannelMultiplexer.init.Connect ⟨2, 1, false⟩).1).ReadFirstHeaderPartFrom 0
        (leEncode 8 (2 ^ 63) ++ leEncode 8 999)).isSome = true ∧
    ((((ChannelMultiplexer.init.Connect ⟨2, 1, false⟩).1).ReadFirstHeaderPartFrom 0
        (leEncode 8 (2 ^ 63) ++ leEncode 8 999)).map
      (fun p => p.1.HasChannel 999)) = some true ∧
    ((((ChannelMultiplexer.init.Connect ⟨2, 1, false⟩).1).ReadFirstHeaderPartFrom 0
        (leEncode 8 (2 ^ 63) ++ leEncode 8 999)).map (fun p => p.2))
      = some [Effect.pickup ⟨999, 2, 0, some ⟨[]⟩⟩ 0 ⟨2 ^ 63, 999⟩] := by
  refine ⟨rfl, rfl, ?_, ?_, ?_⟩ <;> decide

/-- C8: invariant kept by every multiplexer operation: in every state
reachable from the initial multiplexer, whenever `HasChannel id` is true,
`HasDataOn id` is also true — a Channel never exists without its backing
Buffer-Chain, because channel creation allocates the chain first and no
operation removes a chain. -/
theorem channel_implies_chain (t : List Op) (id : Nat)
    (h : (run ChannelMultiplexer.init t).HasChannel id = true) :
    (run ChannelMultiplexer.init t).HasDataOn id = true := by
  have main : ∀ (u : List Op) (m : ChannelMultiplexer),
      (∀ j, m.HasChannel j = true → m.HasDataOn j = true) →
      ∀ j, (run m u).HasChannel j = true → (run m u).HasDataOn j = true := by
    intro u
    induction u with
    | nil => exact fun m hm => hm
    | cons op u ih =>
      intro m hm
      exact ih (step m op) (step_preserves_chanInv m op hm)
  refine main t ChannelMultiplexer.init ?_ id h
  intro j hj
  simp [ChannelMultiplexer.HasChannel, ChannelMultiplexer.init, lookupA] at hj

/-- Witness for C8: the state after a header for id 0 arrived has both a
channel and a chain for id 0. -/
theorem channel_implies_chain_witness :
    (run ChannelMultiplexer.init
        [Op.connect ⟨2, 1, false⟩,
         Op.headerArrive 0 (List.replicate 16 0)]).HasChannel 0 = true ∧
    (run ChannelMultiplexer.init
        [Op.connect ⟨2, 1, false⟩,
         Op.headerArrive 0 (List.replicate 16 0)]).HasDataOn 0 = true :=
  ⟨by decide, channel_implies_chain
    [Op.connect ⟨2, 1, false⟩, Op.headerArrive 0 (List.replicate 16 0)] 0 (by decide)⟩

/-- C6: `HasChannel id` is true iff a Channel object is registered for `id`,
and `HasDataOn id` is true iff a Buffer-Chain exists for `id`, independent
of the channel registry — each is a pure lookup on its registry (a function
of the state producing a Bool, changing nothing).  Consequently, for an id
never allocated (the id is at least the number of `AllocateNext` calls in
the run), never opened, and never referenced by any inbound header or
loopback close, both queries return false. -/
theorem queries_pure_and_false_for_untouched (m : ChannelMultiplexer) (id : Nat)
    (t : List Op)
    (hrefs : ∀ op ∈ t, op.refsId id = false)
    (halloc : t.countP Op.isAllocNext ≤ id) :
    (m.HasChannel id = (lookupA m.channels_ id).isSome) ∧
    (m.HasDataOn id = (lookupA m.chains_.chains id).isSome) ∧
    (run ChannelMultiplexer.init t).HasChannel id = false ∧
    (run ChannelMultiplexer.init t).HasDataOn id = false := by
  have h := run_preserves_untouched t ChannelMultiplexer.init id rfl rfl hrefs
    (Or.inr (by simpa [ChannelMultiplexer.init] using halloc))
  exact ⟨rfl, rfl, h.1, h.2⟩

/-- Witness for C6 at id 5: a run that connects, allocates id 0 and receives
a header for id 0 never touches id 5, and both queries return false there. -/
theorem queries_pure_and_false_for_untouched_witness :
    (ChannelMultiplexer.init.HasChannel 5
        = (lookupA ChannelMultiplexer.init.channels_ 5).isSome) ∧
    (ChannelMultiplexer.init.HasDataOn 5
        = (lookupA ChannelMultiplexer.init.chains_.chains 5).isSome) ∧
    (run ChannelMultiplexer.init
        [Op.connect ⟨2, 0, false⟩, Op.allocateNext,
         Op.headerArrive 1 (List.replicate 16 0)]).HasChannel 5 = false ∧
    (run ChannelMultiplexer.init
        [Op.connect ⟨2, 0, false⟩, Op.allocateNext,
         Op.headerArrive 1 (List.replicate 16 0)]).HasDataOn 5 = false :=
  queries_pure_and_false_for_untouched ChannelMultiplexer.init 5
    [Op.connect ⟨2, 0, false⟩, Op.allocateNext,
     Op.headerArrive 1 (List.replicate 16 0)] (by decide) (by decide)

end C7A
